import Mathlib

/-!
Verification of the GitStarRecall local indexing and retrieval engine.

This file gives a shallow embedding, in Lean 4, of the pure algorithmic core
of the repository: the checksum-based sync planner (`sync/plan.ts`), the
canonical checksum input (`github/checksum.ts`), the text chunker
(`chunking/chunker.ts`), the embedding checkpoint policy (`db/client.ts`),
and the embedding worker pool orchestrator (`embeddings/WorkerPool.ts`),
together with theorems about their behaviour.

Modelling conventions:
- JavaScript `string | null` values become `Option String`; JavaScript
  truthiness of such values (`null` and `""` are falsy) is `jsTruthy`.
- JavaScript numbers used as ids, counters and timestamps become `Int`
  (or `Nat` where the source guarantees non-negative integers).
- JavaScript string indexing/slicing is modelled at the level of Unicode
  code points (Lean `Char`), which is faithful for all the inputs the
  theorems below evaluate.
-/

namespace GitStarRecall

/-- Truthiness of a JavaScript `string | null` value: `null` and the empty
string are falsy, every other string is truthy. -/
def jsTruthy : Option String → Bool
  | none => false
  | some s => s != ""

/-- Containment of `needle` as a contiguous sublist of `haystack`. -/
def listContainsSub (needle : List Char) : List Char → Bool
  | [] => needle.isEmpty
  | c :: rest => List.isPrefixOf needle (c :: rest) || listContainsSub needle rest

/-- Model of JavaScript `haystack.includes(needle)`: substring containment. -/
def jsIncludes (haystack needle : String) : Bool :=
  listContainsSub needle.toList haystack.toList

/-- Model of JavaScript `parts.join(sep)` on a string array. -/
def joinWith (sep : String) : List String → String
  | [] => ""
  | [x] => x
  | x :: y :: rest => x ++ sep ++ joinWith sep (y :: rest)

/-- Model of JavaScript `Array.prototype.sort()` on a string array: sorting
into ascending lexicographic order (the source compares UTF-16 units; code
point order coincides on every input considered here). -/
def sortStrings (l : List String) : List String :=
  List.insertionSort (· ≤ ·) l

/-- Sorting with a fixed linear order is invariant under permutation of the
input list. -/
theorem sortStrings_perm_eq {a b : List String} (h : a.Perm b) :
    sortStrings a = sortStrings b :=
  List.eq_of_perm_of_sorted
    (((List.perm_insertionSort _ a).trans h).trans (List.perm_insertionSort _ b).symm)
    (List.sorted_insertionSort _ a)
    (List.sorted_insertionSort _ b)

/-- Checksum-relevant snapshot of a locally stored repository
(`RepoSyncState` in `db/types`, read back by `listRepoSyncState`). -/
structure RepoSyncState where
  id : Int
  fullName : String
  description : Option String
  topics : List String
  language : Option String
  updatedAt : String
  checksum : Option String
deriving DecidableEq

/-- Remote snapshot of a starred repository (`GitHubStarredRepo` in
`github/types.ts`); fields not read by any modelled function
(`node_id`, `name`, `html_url`, counters, `owner`) are omitted. -/
structure GitHubStarredRepo where
  id : Int
  full_name : String
  description : Option String
  language : Option String
  topics : Option (List String)
  updated_at : String
deriving DecidableEq

/-- Model of `equalTopics` (sync planner): equal lengths and equal contents
after sorting both sides. -/
def equalTopics (a b : List String) : Bool :=
  a.length == b.length && sortStrings a == sortStrings b

/-- Model of `repoMetadataChanged` (sync planner): any checksum-relevant
field differs, with topics compared order-independently. -/
def repoMetadataChanged (localRepo : RepoSyncState) (remote : GitHubStarredRepo) : Bool :=
  localRepo.fullName != remote.full_name ||
  localRepo.description != remote.description ||
  localRepo.language != remote.language ||
  localRepo.updatedAt != remote.updated_at ||
  !equalTopics localRepo.topics (remote.topics.getD [])

/-- Model of `new Map(localRepos.map(repo => [repo.id, repo]))` followed by
`.get id`: the last entry with a given id wins. -/
def localById (localRepos : List RepoSyncState) (id : Int) : Option RepoSyncState :=
  localRepos.foldl (fun acc r => if r.id = id then some r else acc) none

/-- Predicate filtering remote repos into `candidateRepoIds` in
`buildSyncPlan`: new locally, stored checksum falsy (`!local.checksum`),
or checksum-relevant metadata changed. -/
def isCandidate (localRepos : List RepoSyncState) (repo : GitHubStarredRepo) : Bool :=
  match localById localRepos repo.id with
  | none => true
  | some localRepo =>
    if !jsTruthy localRepo.checksum then true
    else repoMetadataChanged localRepo repo

/-- Result of `buildSyncPlan`. -/
structure SyncPlan where
  removedRepoIds : List Int
  candidateRepoIds : List Int
deriving DecidableEq

/-- Model of `buildSyncPlan` (sync planner): local ids absent from the remote
snapshot are removed; remote repos passing `isCandidate` are candidates. -/
def buildSyncPlan (localRepos : List RepoSyncState) (remoteRepos : List GitHubStarredRepo) :
    SyncPlan :=
  { removedRepoIds :=
      (localRepos.map (fun r => r.id)).filter
        (fun id => !(remoteRepos.any (fun r => r.id = id)))
    candidateRepoIds :=
      (remoteRepos.filter (fun repo => isCandidate localRepos repo)).map (fun r => r.id) }

/-- Model of `canonicalChecksumInput` (`github/checksum.ts`): the canonical
concatenation hashed into the repository content checksum. `readmeSha256`
stands for the document hash computed upstream. -/
def canonicalChecksumInput (repo : GitHubStarredRepo) (readmeSha256 : String) : String :=
  let stableTopics := sortStrings (repo.topics.getD [])
  joinWith "\n"
    [ "id:" ++ toString repo.id,
      "full_name:" ++ repo.full_name,
      "description:" ++ repo.description.getD "",
      "language:" ++ repo.language.getD "",
      "topics:" ++ joinWith "," stableTopics,
      "updated_at:" ++ repo.updated_at,
      "readme_sha256:" ++ readmeSha256 ]

/-- Membership in `removedRepoIds`: exactly the local ids that no remote repo
carries. -/
theorem mem_removedRepoIds {localRepos : List RepoSyncState}
    {remoteRepos : List GitHubStarredRepo} {id : Int} :
    id ∈ (buildSyncPlan localRepos remoteRepos).removedRepoIds ↔
      (∃ l ∈ localRepos, l.id = id) ∧ ∀ r ∈ remoteRepos, r.id ≠ id := by
  simp [buildSyncPlan, List.mem_filter, List.mem_map]

/-- Membership in `candidateRepoIds`: exactly the ids of remote repos passing
the candidate predicate. -/
theorem mem_candidateRepoIds {localRepos : List RepoSyncState}
    {remoteRepos : List GitHubStarredRepo} {id : Int} :
    id ∈ (buildSyncPlan localRepos remoteRepos).candidateRepoIds ↔
      ∃ r ∈ remoteRepos, isCandidate localRepos r = true ∧ r.id = id := by
  simp only [buildSyncPlan, List.mem_map, List.mem_filter]
  tauto

/-- The candidate predicate unfolded: a remote repo is a candidate exactly
when it is new locally, its stored checksum is falsy, or a checksum-relevant
field differs from the stored local copy. -/
theorem isCandidate_iff (localRepos : List RepoSyncState) (r : GitHubStarredRepo) :
    isCandidate localRepos r = true ↔
      (localById localRepos r.id = none ∨
        ∃ l, localById localRepos r.id = some l ∧
          (jsTruthy l.checksum = false ∨ repoMetadataChanged l r = true)) := by
  unfold isCandidate
  cases h : localById localRepos r.id with
  | none => simp
  | some l =>
    dsimp only
    split_ifs with hck
    · simp only [true_iff]
      right
      exact ⟨l, rfl, Or.inl (by simpa using hck)⟩
    · constructor
      · intro hch
        exact Or.inr ⟨l, rfl, Or.inr hch⟩
      · rintro (hnone | ⟨l', hl', hdis⟩)
        · exact absurd hnone (by simp)
        · have heq : l' = l := by
            injection hl' with heq2
            exact heq2.symm
          subst heq
          rcases hdis with hfalse | hch
          · exact absurd hfalse (by simpa using hck)
          · exact hch

/-- C2: for snapshots with distinct ids on each side, `buildSyncPlan` yields
disjoint `removedRepoIds` and `candidateRepoIds`; removed ids are local ids
absent from the remote snapshot; candidate ids are present in the remote
snapshot; and a remote repo is a candidate exactly when it is new locally,
its stored checksum is missing/blank, or a checksum-relevant field differs. -/
theorem buildSyncPlan_sound (localRepos : List RepoSyncState)
    (remoteRepos : List GitHubStarredRepo)
    (_hl : (localRepos.map (fun r => r.id)).Nodup)
    (hr : (remoteRepos.map (fun r => r.id)).Nodup) :
    (∀ id ∈ (buildSyncPlan localRepos remoteRepos).removedRepoIds,
        id ∉ (buildSyncPlan localRepos remoteRepos).candidateRepoIds) ∧
    (∀ id ∈ (buildSyncPlan localRepos remoteRepos).removedRepoIds,
        (∃ l ∈ localRepos, l.id = id) ∧ ∀ r ∈ remoteRepos, r.id ≠ id) ∧
    (∀ id ∈ (buildSyncPlan localRepos remoteRepos).candidateRepoIds,
        ∃ r ∈ remoteRepos, r.id = id) ∧
    (∀ r ∈ remoteRepos,
        (r.id ∈ (buildSyncPlan localRepos remoteRepos).candidateRepoIds ↔
          (localById localRepos r.id = none ∨
            ∃ l, localById localRepos r.id = some l ∧
              (jsTruthy l.checksum = false ∨ repoMetadataChanged l r = true)))) := by
  refine ⟨?_, ?_, ?_, ?_⟩
  · intro id hrem hcand
    obtain ⟨-, habsent⟩ := mem_removedRepoIds.mp hrem
    obtain ⟨r, hrmem, -, hrid⟩ := mem_candidateRepoIds.mp hcand
    exact habsent r hrmem hrid
  · intro id hrem
    exact mem_removedRepoIds.mp hrem
  · intro id hcand
    obtain ⟨r, hrmem, -, hrid⟩ := mem_candidateRepoIds.mp hcand
    exact ⟨r, hrmem, hrid⟩
  · intro r hrmem
    rw [← isCandidate_iff]
    constructor
    · intro hcand
      obtain ⟨r', hr'mem, hcand', hr'id⟩ := mem_candidateRepoIds.mp hcand
      have : r' = r := List.inj_on_of_nodup_map hr hr'mem hrmem hr'id
      exact this ▸ hcand'
    · intro hcand
      exact mem_candidateRepoIds.mpr ⟨r, hrmem, hcand, rfl⟩

/-- Witness for C2 at a concrete pair of snapshots: repo 2 is only present
locally, so it is removed, and hence — by disjointness — not a candidate. -/
theorem buildSyncPlan_sound_witness :
    (2 : Int) ∉ (buildSyncPlan
        [{ id := 1, fullName := "o/a", description := none, topics := ["x"],
           language := some "ts", updatedAt := "t1", checksum := some "c" },
         { id := 2, fullName := "o/b", description := none, topics := [],
           language := none, updatedAt := "t2", checksum := some "c2" }]
        [{ id := 1, full_name := "o/a", description := none,
           language := some "ts", topics := some ["x"], updated_at := "t1" },
         { id := 3, full_name := "o/c", description := none,
           language := none, topics := none, updated_at := "t3" }]).candidateRepoIds :=
  (buildSyncPlan_sound
    [{ id := 1, fullName := "o/a", description := none, topics := ["x"],
       language := some "ts", updatedAt := "t1", checksum := some "c" },
     { id := 2, fullName := "o/b", description := none, topics := [],
       language := none, updatedAt := "t2", checksum := some "c2" }]
    [{ id := 1, full_name := "o/a", description := none,
       language := some "ts", topics := some ["x"], updated_at := "t1" },
     { id := 3, full_name := "o/c", description := none,
       language := none, topics := none, updated_at := "t3" }]
    (by decide) (by decide)).1 2 (by decide)

/-- Helper: `equalTopics` holds whenever the two topic lists are permutations
of one another. -/
theorem equalTopics_of_perm {a b : List String} (h : a.Perm b) :
    equalTopics a b = true := by
  have hlen : a.length = b.length := h.length_eq
  have hsort : sortStrings a = sortStrings b := sortStrings_perm_eq h
  simp [equalTopics, hlen, hsort]

/-- C8: a local repo with a stored checksum and a remote copy identical except
for the order of its topics is not a candidate: `buildSyncPlan` returns no
candidate for it. -/
theorem buildSyncPlan_topics_order_irrelevant (localRepo : RepoSyncState)
    (remote : GitHubStarredRepo)
    (hid : localRepo.id = remote.id)
    (hck : jsTruthy localRepo.checksum = true)
    (hfn : localRepo.fullName = remote.full_name)
    (hd : localRepo.description = remote.description)
    (hlang : localRepo.language = remote.language)
    (hup : localRepo.updatedAt = remote.updated_at)
    (ht : localRepo.topics.Perm (remote.topics.getD [])) :
    (buildSyncPlan [localRepo] [remote]).candidateRepoIds = [] := by
  have hch : repoMetadataChanged localRepo remote = false := by
    simp [repoMetadataChanged, hfn, hd, hlang, hup, equalTopics_of_perm ht]
  have hloc : localById [localRepo] remote.id = some localRepo := by
    simp [localById, hid]
  have hcand : isCandidate [localRepo] remote = false := by
    simp [isCandidate, hloc, hck, hch]
  simp [buildSyncPlan, hcand]

/-- Witness for C8: topics `["a", "b"]` locally versus `["b", "a"]` remotely,
all other fields identical, produce an empty candidate list. -/
theorem buildSyncPlan_topics_order_irrelevant_witness :
    (buildSyncPlan
      [{ id := 1, fullName := "o/a", description := some "d", topics := ["a", "b"],
         language := some "ts", updatedAt := "t1", checksum := some "c" }]
      [{ id := 1, full_name := "o/a", description := some "d",
         language := some "ts", topics := some ["b", "a"],
         updated_at := "t1" }]).candidateRepoIds = [] :=
  buildSyncPlan_topics_order_irrelevant
    { id := 1, fullName := "o/a", description := some "d", topics := ["a", "b"],
      language := some "ts", updatedAt := "t1", checksum := some "c" }
    { id := 1, full_name := "o/a", description := some "d",
      language := some "ts", topics := some ["b", "a"], updated_at := "t1" }
    rfl (by decide) rfl rfl rfl rfl (by decide)

/-- C4 (amended): two remote snapshots with equal checksummed fields — topics
compared as multisets, in any order — produce the same canonical checksum
input. -/
theorem canonicalChecksumInput_perm_invariant (a b : GitHubStarredRepo)
    (readmeSha256 : String)
    (hid : a.id = b.id) (hfn : a.full_name = b.full_name)
    (hd : a.description = b.description) (hlang : a.language = b.language)
    (hup : a.updated_at = b.updated_at)
    (ht : (a.topics.getD []).Perm (b.topics.getD [])) :
    canonicalChecksumInput a readmeSha256 = canonicalChecksumInput b readmeSha256 := by
  simp [canonicalChecksumInput, hid, hfn, hd, hlang, hup, sortStrings_perm_eq ht]

/-- Witness for the amended C4 at concrete snapshots with permuted topics. -/
theorem canonicalChecksumInput_perm_invariant_witness :
    canonicalChecksumInput
      { id := 7, full_name := "o/a", description := some "d",
        language := some "ts", topics := some ["a", "z"], updated_at := "t" } "sha" =
    canonicalChecksumInput
      { id := 7, full_name := "o/a", description := some "d",
        language := some "ts", topics := some ["z", "a"], updated_at := "t" } "sha" :=
  canonicalChecksumInput_perm_invariant
    { id := 7, full_name := "o/a", description := some "d",
      language := some "ts", topics := some ["a", "z"], updated_at := "t" }
    { id := 7, full_name := "o/a", description := some "d",
      language := some "ts", topics := some ["z", "a"], updated_at := "t" }
    "sha" rfl rfl rfl rfl rfl (by decide)

/-- Snapshot whose single topic is the string `a,b` (a comma inside one topic). -/
def checksumCollisionRepoA : GitHubStarredRepo :=
  { id := 1, full_name := "o/a", description := none, language := none,
    topics := some ["a,b"], updated_at := "t" }

/-- Snapshot with the two distinct topics `a` and `b`. -/
def checksumCollisionRepoB : GitHubStarredRepo :=
  { id := 1, full_name := "o/a", description := none, language := none,
    topics := some ["a", "b"], updated_at := "t" }

/-- Counterexample to C4 as stated: the topics field differs between the two
snapshots, yet the canonical checksum input is identical, because the comma
join of sorted topics is not injective. -/
theorem canonicalChecksumInput_not_injective :
    checksumCollisionRepoA.topics ≠ checksumCollisionRepoB.topics ∧
    canonicalChecksumInput checksumCollisionRepoA "h" =
      canonicalChecksumInput checksumCollisionRepoB "h" := by
  constructor
  · decide
  · simp only [canonicalChecksumInput, checksumCollisionRepoA, checksumCollisionRepoB,
      sortStrings, List.insertionSort, List.orderedInsert, joinWith]
    norm_num
    decide

/-- Default flush-count threshold (`DEFAULT_EMBEDDING_CHECKPOINT_EVERY_EMBEDDINGS`
in `db/client.ts`). -/
def DEFAULT_EMBEDDING_CHECKPOINT_EVERY_EMBEDDINGS : Nat := 256

/-- Default flush-time threshold in milliseconds
(`DEFAULT_EMBEDDING_CHECKPOINT_EVERY_MS` in `db/client.ts`). -/
def DEFAULT_EMBEDDING_CHECKPOINT_EVERY_MS : Nat := 3000

/-- Checkpoint policy parameters (`EmbeddingCheckpointPolicy` in
`db/client.ts`); both values pass through `normalizePositiveInt` and so
are integers at least 1. -/
structure EmbeddingCheckpointPolicy where
  everyEmbeddings : Nat
  everyMs : Nat
deriving DecidableEq

/-- Checkpoint policy with both defaults. -/
def defaultEmbeddingCheckpointPolicy : EmbeddingCheckpointPolicy :=
  { everyEmbeddings := DEFAULT_EMBEDDING_CHECKPOINT_EVERY_EMBEDDINGS
    everyMs := DEFAULT_EMBEDDING_CHECKPOINT_EVERY_MS }

/-- The mutable checkpoint bookkeeping of `LocalDatabase`:
`pendingEmbeddingsSinceCheckpoint`, `pendingEmbeddingsStartedAt` (0 when
unset) and `lastEmbeddingCheckpointAt` (null before the first flush).
Timestamps are milliseconds as returned by `Date.now()`. -/
structure CheckpointState where
  pending : Int
  startedAt : Int
  lastCheckpointAt : Option Int
deriving DecidableEq

/-- The baseline instant against which `shouldCheckpointEmbeddings` measures
elapsed time: `lastEmbeddingCheckpointAt ?? (startedAt > 0 ? startedAt : now)`. -/
def checkpointBaseline (st : CheckpointState) (now : Int) : Int :=
  match st.lastCheckpointAt with
  | some t => t
  | none => if 0 < st.startedAt then st.startedAt else now

/-- Model of `LocalDatabase.shouldCheckpointEmbeddings`. -/
def shouldCheckpointEmbeddings (policy : EmbeddingCheckpointPolicy)
    (st : CheckpointState) (now : Int) : Bool :=
  if st.pending ≤ 0 then false
  else if (policy.everyEmbeddings : Int) ≤ st.pending then true
  else (policy.everyMs : Int) ≤ now - checkpointBaseline st now

/-- Model of `LocalDatabase.noteEmbeddingWrites`: records `count` embedding
writes performed at instant `now`. -/
def noteEmbeddingWrites (st : CheckpointState) (count : Int) (now : Int) :
    CheckpointState :=
  if count ≤ 0 then st
  else
    { st with
        startedAt := if st.pending = 0 then now else st.startedAt
        pending := st.pending + count }

/-- Model of `LocalDatabase.flushPendingEmbeddingCheckpoint`: returns whether
a flush (export to stable storage) was performed, plus the new state. -/
def flushPendingEmbeddingCheckpoint (st : CheckpointState) (now : Int) :
    Bool × CheckpointState :=
  if st.pending ≤ 0 then (false, st)
  else (true, { pending := 0, startedAt := 0, lastCheckpointAt := some now })

/-- Model of the tail of `LocalDatabase.upsertEmbeddings`: note the written
embeddings, then flush when `shouldCheckpointEmbeddings` fires. (The source
reads `Date.now()` twice in immediate succession; both reads are modelled by
the same `now`.) -/
def upsertEmbeddingsCheckpointStep (policy : EmbeddingCheckpointPolicy)
    (st : CheckpointState) (count : Int) (now : Int) : Bool × CheckpointState :=
  if shouldCheckpointEmbeddings policy (noteEmbeddingWrites st count now) now then
    flushPendingEmbeddingCheckpoint (noteEmbeddingWrites st count now) now
  else (false, noteEmbeddingWrites st count now)

/-- The flush condition exactly as the claim states it: the count of
embeddings written since the last flush reaches `everyEmbeddings`, or the
elapsed time since the first unflushed embedding write reaches `everyMs`.
This definition renders the claim's words, to be compared against the
source's behaviour. -/
def claimedFlushCondition (policy : EmbeddingCheckpointPolicy)
    (st : CheckpointState) (now : Int) : Prop :=
  (policy.everyEmbeddings : Int) ≤ st.pending ∨
    (0 < st.pending ∧ (policy.everyMs : Int) ≤ now - st.startedAt)

/-- Counterexample to C5 as stated: after a flush at instant 1000, a single
embedding written at instant 4000 triggers an immediate flush (the code
measures elapsed time from the last flush, not from the first unflushed
write), although the claimed condition does not hold — the write is 0 ms
old and far below the 256-count threshold. -/
theorem checkpoint_baseline_counterexample :
    (upsertEmbeddingsCheckpointStep defaultEmbeddingCheckpointPolicy
        { pending := 0, startedAt := 0, lastCheckpointAt := some 1000 } 1 4000).1 = true ∧
    ¬ claimedFlushCondition defaultEmbeddingCheckpointPolicy
        (noteEmbeddingWrites
          { pending := 0, startedAt := 0, lastCheckpointAt := some 1000 } 1 4000) 4000 := by
  constructor
  · decide
  · simp only [claimedFlushCondition, noteEmbeddingWrites, defaultEmbeddingCheckpointPolicy,
      DEFAULT_EMBEDDING_CHECKPOINT_EVERY_EMBEDDINGS, DEFAULT_EMBEDDING_CHECKPOINT_EVERY_MS]
    norm_num

/-- C5 (amended): a flush after `upsertEmbeddings` is triggered exactly when
unflushed writes exist and either their count reaches `everyEmbeddings`
(default 256) or the elapsed time since the last flush — or, before any
flush, since the first unflushed embedding write (the current instant when
none is recorded) — reaches `everyMs` (default 3000 ms); and
`flushPendingEmbeddingCheckpoint` flushes on demand exactly when unflushed
writes exist. -/
theorem checkpoint_flush_characterization (policy : EmbeddingCheckpointPolicy)
    (st : CheckpointState) (count : Int) (now : Int) :
    ((upsertEmbeddingsCheckpointStep policy st count now).1 = true ↔
      (0 < (noteEmbeddingWrites st count now).pending ∧
        ((policy.everyEmbeddings : Int) ≤ (noteEmbeddingWrites st count now).pending ∨
          (policy.everyMs : Int) ≤
            now - checkpointBaseline (noteEmbeddingWrites st count now) now))) ∧
    ((flushPendingEmbeddingCheckpoint st now).1 = true ↔ 0 < st.pending) ∧
    defaultEmbeddingCheckpointPolicy.everyEmbeddings = 256 ∧
    defaultEmbeddingCheckpointPolicy.everyMs = 3000 := by
  have hshould : ∀ st1 : CheckpointState,
      shouldCheckpointEmbeddings policy st1 now = true ↔
        (0 < st1.pending ∧ ((policy.everyEmbeddings : Int) ≤ st1.pending ∨
          (policy.everyMs : Int) ≤ now - checkpointBaseline st1 now)) := by
    intro st1
    unfold shouldCheckpointEmbeddings
    split_ifs with h1 h2 <;> simp <;> omega
  refine ⟨?_, ?_, rfl, rfl⟩
  · unfold upsertEmbeddingsCheckpointStep
    rw [← hshould]
    split_ifs with h
    · simp only [h, iff_true]
      have hp : 0 < (noteEmbeddingWrites st count now).pending :=
        ((hshould _).mp h).1
      unfold flushPendingEmbeddingCheckpoint
      split_ifs with h2
      · omega
      · rfl
    · simp [h]
  · unfold flushPendingEmbeddingCheckpoint
    split_ifs with h <;> simp <;> omega

/-- Stored repository record (`RepoRecord` in `db/types`). -/
structure RepoRecord where
  id : Int
  fullName : String
  name : String
  description : Option String
  topics : List String
  language : Option String
  htmlUrl : String
  stars : Int
  forks : Int
  updatedAt : String
  readmeUrl : Option String
  readmeText : Option String
  checksum : Option String
  lastSyncedAt : Int
deriving DecidableEq

/-- Chunk record produced by the chunker (`ChunkRecord` in `db/types`). -/
structure ChunkRecord where
  id : String
  repoId : Int
  chunkId : String
  text : String
  source : String
  createdAt : Int
deriving DecidableEq

/-- Maximum number of characters of normalized README text kept for chunking
(`MAX_README_LENGTH` in `chunking/chunker.ts`). -/
def MAX_README_LENGTH : Nat := 100000

/-- Model of JavaScript `text.slice(start, start + len)` (non-negative
bounds), at code-point granularity. -/
def stringSlice (text : String) (start len : Nat) : String :=
  String.mk ((text.toList.drop start).take len)

/-- Model of `makeChunkId`: the deterministic chunk id `{repoId}:{index}`. -/
def makeChunkId (repoId : Int) (index : Nat) : String :=
  toString repoId ++ ":" ++ toString index

/-- Model of `buildMetadataHeader`: the short metadata header prepended to the
README body. Falsy (`null`/empty) description and language are skipped, as is
an empty topics list. -/
def buildMetadataHeader (repo : RepoRecord) : String :=
  let parts := ["Repository: " ++ repo.fullName]
  let parts := if jsTruthy repo.description then
    parts ++ ["Description: " ++ repo.description.getD ""] else parts
  let parts := if jsTruthy repo.language then
    parts ++ ["Language: " ++ repo.language.getD ""] else parts
  let parts := if 0 < repo.topics.length then
    parts ++ ["Topics: " ++ joinWith ", " repo.topics] else parts
  joinWith "\n" parts

/-- Model of `resolveChunkConfig`: window size and overlap adapt to the total
text length in three tiers. -/
def resolveChunkConfig (textLength : Nat) : Int × Int :=
  if textLength ≤ 3000 then (900, 140)
  else if textLength ≤ 15000 then (760, 110)
  else (640, 90)

/-- Model of `splitIntoChunks`: overlapping windows of `size` characters,
consecutive windows sharing `overlap` characters; an invalid window
configuration throws; an empty text yields exactly one empty chunk. The
source's `while` loop pushes `text.slice(start, start + size)` for
`start = 0, step, 2*step, ...` while `start < text.length` with
`step = size - overlap`; the same windows are produced here indexed by
window number. -/
def splitIntoChunks (text : String) (size overlap : Int) :
    Except String (List String) :=
  if size ≤ 0 ∨ overlap < 0 ∨ size ≤ overlap then
    .error "Invalid chunk window configuration"
  else if text.length = 0 then .ok [""]
  else
    let step := size.toNat - overlap.toNat
    .ok ((List.range ((text.length + step - 1) / step)).map
      (fun k => stringSlice text (k * step) size.toNat))

/-- The `readmeBody` local of `chunkRepo`: a falsy (`null`/empty) README gives
the empty body, otherwise the normalized text truncated to
`MAX_README_LENGTH` characters. The README normalizer (`normalizeText`, a
pipeline of regular-expression rewrites) is passed in as an arbitrary total
text transformation `normalize`; every theorem below holds for each such
transformation, hence for the source's. -/
def chunkReadmeBody (normalize : String → String) (repo : RepoRecord) : String :=
  if jsTruthy repo.readmeText then
    if MAX_README_LENGTH < (normalize (repo.readmeText.getD "")).length then
      stringSlice (normalize (repo.readmeText.getD "")) 0 MAX_README_LENGTH
    else normalize (repo.readmeText.getD "")
  else ""

/-- The `combined` local of `chunkRepo`: metadata header, then (when the body
is non-empty) a blank line and the README body. -/
def chunkCombinedText (normalize : String → String) (repo : RepoRecord) : String :=
  if 0 < (chunkReadmeBody normalize repo).length then
    buildMetadataHeader repo ++ "\n\n" ++ chunkReadmeBody normalize repo
  else buildMetadataHeader repo

/-- Model of `chunkRepo`: split the combined text into adaptive overlapping
windows and attach deterministic ids `{repoId}:{index}`. `now` stands for
`Date.now()`. -/
def chunkRepo (normalize : String → String) (now : Int) (repo : RepoRecord) :
    Except String (List ChunkRecord) :=
  match splitIntoChunks (chunkCombinedText normalize repo)
      (resolveChunkConfig (chunkCombinedText normalize repo).length).1
      (resolveChunkConfig (chunkCombinedText normalize repo).length).2 with
  | .error e => .error e
  | .ok windows =>
    .ok (windows.enum.map (fun p =>
      { id := makeChunkId repo.id p.1
        repoId := repo.id
        chunkId := makeChunkId repo.id p.1
        text := p.2
        source := if jsTruthy repo.readmeText then "metadata+readme" else "metadata"
        createdAt := now }))

/-- The metadata header always starts with the literal `Repository: `, so it
is never empty. -/
theorem buildMetadataHeader_length_pos (repo : RepoRecord) :
    0 < (buildMetadataHeader repo).length := by
  unfold buildMetadataHeader
  have hjoin : ∀ (x : String) (xs : List String),
      x.length ≤ (joinWith "\n" (x :: xs)).length := by
    intro x xs
    cases xs with
    | nil => simp [joinWith]
    | cons y ys => simp [joinWith, String.length_append]; omega
  have hx : 0 < ("Repository: " ++ repo.fullName).length := by
    rw [String.length_append]
    have h12 : 0 < "Repository: ".length := by decide
    omega
  split_ifs <;>
    exact lt_of_lt_of_le hx (hjoin _ _)

/-- A valid window configuration applied to a non-empty text yields at least
one window, and the window count is determined by the text length alone. -/
theorem splitIntoChunks_ok_length (text : String) (size overlap : Int)
    (hs : 0 < size) (ho : 0 ≤ overlap) (hso : overlap < size) :
    ∃ ws, splitIntoChunks text size overlap = .ok ws ∧ 1 ≤ ws.length := by
  unfold splitIntoChunks
  have hguard : ¬(size ≤ 0 ∨ overlap < 0 ∨ size ≤ overlap) := by omega
  rw [if_neg hguard]
  by_cases hlen : text.length = 0
  · exact ⟨[""], by rw [if_pos hlen], by simp⟩
  · rw [if_neg hlen]
    refine ⟨_, rfl, ?_⟩
    have hstep : 0 < size.toNat - overlap.toNat := by omega
    have h1 : 1 ≤ text.length := Nat.one_le_iff_ne_zero.mpr hlen
    simp only [List.length_map, List.length_range]
    rw [Nat.le_div_iff_mul_le hstep]
    omega

/-- C9: `chunkRepo` never fails and always produces at least one chunk (also
for a null or empty README); the i-th chunk's `id` and `chunkId` are the
string `{repoId}:{i}`; splitting an empty text under any valid window
configuration gives exactly one empty chunk; and the produced ids do not
depend on the wall-clock instant, so re-chunking unchanged text reproduces
them. -/
theorem chunkRepo_spec (normalize : String → String) (now now' : Int)
    (repo : RepoRecord) (size overlap : Int)
    (hs : 0 < size) (ho : 0 ≤ overlap) (hso : overlap < size) :
    (∃ ws, chunkRepo normalize now repo = .ok ws ∧ 1 ≤ ws.length ∧
      ∀ i, (h : i < ws.length) →
        (ws.get ⟨i, h⟩).id = toString repo.id ++ ":" ++ toString i ∧
        (ws.get ⟨i, h⟩).chunkId = toString repo.id ++ ":" ++ toString i) ∧
    splitIntoChunks "" size overlap = .ok [""] ∧
    (chunkRepo normalize now repo).map (fun ws => ws.map (fun c => c.id)) =
      (chunkRepo normalize now' repo).map (fun ws => ws.map (fun c => c.id)) := by
  have hcfg : ∀ n : Nat, 0 < (resolveChunkConfig n).1 ∧ 0 ≤ (resolveChunkConfig n).2 ∧
      (resolveChunkConfig n).2 < (resolveChunkConfig n).1 := by
    intro n
    unfold resolveChunkConfig
    split_ifs <;> norm_num
  have hne : 0 < (chunkCombinedText normalize repo).length := by
    unfold chunkCombinedText
    split_ifs
    · simp only [String.length_append]
      have := buildMetadataHeader_length_pos repo
      omega
    · exact buildMetadataHeader_length_pos repo
  obtain ⟨ws0, hws0, hlen0⟩ := splitIntoChunks_ok_length (chunkCombinedText normalize repo)
    (resolveChunkConfig (chunkCombinedText normalize repo).length).1
    (resolveChunkConfig (chunkCombinedText normalize repo).length).2
    (hcfg _).1 (hcfg _).2.1 (hcfg _).2.2
  have hrepo : chunkRepo normalize now repo = .ok (ws0.enum.map (fun p =>
      ({ id := makeChunkId repo.id p.1
         repoId := repo.id
         chunkId := makeChunkId repo.id p.1
         text := p.2
         source := if jsTruthy repo.readmeText then "metadata+readme" else "metadata"
         createdAt := now } : ChunkRecord))) := by
    unfold chunkRepo
    rw [hws0]
  refine ⟨?_, ?_, ?_⟩
  · refine ⟨_, hrepo, ?_, ?_⟩
    · simpa [List.enum_length] using hlen0
    · intro i h
      constructor <;>
        simp [List.get_eq_getElem, List.getElem_map, List.getElem_enum, makeChunkId]
  · unfold splitIntoChunks
    have hguard : ¬(size ≤ 0 ∨ overlap < 0 ∨ size ≤ overlap) := by omega
    rw [if_neg hguard]
    simp
  · unfold chunkRepo
    rw [hws0]
    simp [Except.map, List.map_map]

/-- Witness for C9: a concrete repository with a README, chunked with the
identity normalizer; the valid short-document window configuration splits the
empty text into exactly one empty chunk. -/
theorem chunkRepo_spec_witness :
    splitIntoChunks "" 900 140 = .ok [""] :=
  (chunkRepo_spec (fun s => s) 5 9
    { id := 42, fullName := "o/a", name := "a", description := some "d",
      topics := ["t"], language := some "ts", htmlUrl := "u", stars := 1,
      forks := 0, updatedAt := "t1", readmeUrl := none,
      readmeText := some "hello world", checksum := none, lastSyncedAt := 0 }
    900 140 (by decide) (by decide) (by decide)).2.1

/-! ### Embedding worker pool (`embeddings/WorkerPool.ts`) -/

/-- Default pool size (`DEFAULT_POOL_SIZE`). -/
def DEFAULT_POOL_SIZE : Nat := 2

/-- Default queue bound (`DEFAULT_MAX_QUEUE_SIZE`). -/
def DEFAULT_MAX_QUEUE_SIZE : Nat := 1024

/-- Default cumulative error threshold (`DEFAULT_DOWNSHIFT_ERROR_THRESHOLD`). -/
def DEFAULT_DOWNSHIFT_ERROR_THRESHOLD : Nat := 3

/-- Default micro-batch size (`DEFAULT_WORKER_BATCH_SIZE`). -/
def DEFAULT_WORKER_BATCH_SIZE : Nat := 8

/-- Outcome of coercing an arbitrary JavaScript option value with `Number(...)`:
missing (`undefined`) or non-numeric values give `NaN`; otherwise a finite
rational or an infinity. -/
inductive JsNumberInput where
  | undefined
  | nan
  | infinite (positive : Bool)
  | num (value : Rat)
deriving DecidableEq

/-- Model of JavaScript `Math.trunc` on a finite number: round toward zero. -/
def jsTrunc (q : Rat) : Int :=
  if 0 ≤ q then Rat.floor q else -Rat.floor (-q)

/-- Model of `clampPositiveInt` (WorkerPool.ts): non-finite or non-positive
values are silently replaced by the fallback; positive finite values are
truncated and clamped to at least 1. -/
def clampPositiveInt (value : JsNumberInput) (fallback : Nat) : Nat :=
  match value with
  | .num q => if q ≤ 0 then fallback else (max 1 (jsTrunc q)).toNat
  | _ => fallback

/-- Constructor options of `EmbeddingWorkerPool` (numeric fields only; the
`preferredBackend`/`createEmbedder` options do not influence the modelled
state machine). -/
structure EmbeddingWorkerPoolOptions where
  poolSize : JsNumberInput
  maxQueueSize : JsNumberInput
  downshiftErrorThreshold : JsNumberInput
  workerBatchSize : JsNumberInput
deriving DecidableEq

/-- The mutable numeric state of one `EmbeddingWorkerPool` instance. The
`embedders` array is not modelled: which worker instance executes a sub-batch
never influences the modelled outcome, because each sub-batch's underlying
call is given by a per-sub-batch oracle (`EmbedderResponse`). -/
structure PoolState where
  configuredPoolSize : Nat
  maxQueueSize : Nat
  downshiftErrorThreshold : Nat
  workerBatchSize : Nat
  activePoolSize : Nat
  errorCount : Nat
  downshiftReason : Option String
deriving DecidableEq

/-- Model of the `EmbeddingWorkerPool` constructor: every option is clamped
with `clampPositiveInt`, the active pool starts at the configured size, and
construction is total (it never throws on bad option values). -/
def mkPool (options : EmbeddingWorkerPoolOptions) : PoolState :=
  { configuredPoolSize := clampPositiveInt options.poolSize DEFAULT_POOL_SIZE
    activePoolSize := clampPositiveInt options.poolSize DEFAULT_POOL_SIZE
    maxQueueSize := clampPositiveInt options.maxQueueSize DEFAULT_MAX_QUEUE_SIZE
    downshiftErrorThreshold :=
      clampPositiveInt options.downshiftErrorThreshold DEFAULT_DOWNSHIFT_ERROR_THRESHOLD
    workerBatchSize := clampPositiveInt options.workerBatchSize DEFAULT_WORKER_BATCH_SIZE
    errorCount := 0
    downshiftReason := none }

/-- One slot of an `embedBatch` result (`BatchEmbeddingResultItem` in
`Embedder.ts`); the embedding payload type is abstract since the pool treats
it opaquely. -/
structure BatchEmbeddingResultItem (V : Type) where
  embedding : Option V
  error : Option String
deriving DecidableEq

/-- Oracle for one worker-level `embedder.embedBatch(job.texts)` call: either
a resolved list of per-item results, or a thrown error with its normalized
message. -/
inductive EmbedderResponse (V : Type) where
  | ok (items : List (BatchEmbeddingResultItem V))
  | thrown (message : String)

/-- Model of JavaScript `String.prototype.toLowerCase` (ASCII case mapping,
which covers every signature the classifier matches). -/
def jsToLowerCase (s : String) : String :=
  String.mk (s.data.map Char.toLower)

/-- Model of `isMemoryPressureError`: a falsy message is not memory pressure;
otherwise the lowercased message is scanned for out-of-memory signatures. -/
def isMemoryPressureError (errorMessage : Option String) : Bool :=
  match errorMessage with
  | none => false
  | some s =>
    if s == "" then false
    else
      jsIncludes (jsToLowerCase s) "out of memory" ||
      jsIncludes (jsToLowerCase s) "memory" ||
      jsIncludes (jsToLowerCase s) "oom" ||
      jsIncludes (jsToLowerCase s) "allocation failed"

/-- The placeholder every result slot is initialized with before any sub-batch
completes. -/
def notExecutedItem (V : Type) : BatchEmbeddingResultItem V :=
  { embedding := none, error := some "embedding job was not executed" }

/-- The fallback used for a missing item inside a resolved sub-batch
(`itemResults[i] ?? {...}`). -/
def missingItemFallback (V : Type) : BatchEmbeddingResultItem V :=
  { embedding := none, error := some "missing batch item result" }

/-- The message of the error thrown when a resolved sub-batch's length does
not match its input length. -/
def lengthMismatchMessage (expected got : Nat) : String :=
  "embedding batch length mismatch: expected " ++ toString expected ++
    ", got " ++ toString got

/-- The state threaded through one `embedBatch` call: the result slots (as a
total map from slot index), plus the instance fields the call mutates. -/
structure PoolRunState (V : Type) where
  res : Nat → BatchEmbeddingResultItem V
  active : Nat
  errCount : Nat
  reason : Option String

/-- Model of `downshiftToSingle`: set the active pool to 1 and record the
first truthy reason. -/
def downshiftToSingle {V : Type} (st : PoolRunState V) (reason : String) :
    PoolRunState V :=
  { st with
      active := 1
      reason := if jsTruthy st.reason then st.reason else some reason }

/-- Model of one iteration of the per-item loop over a resolved sub-batch:
store the item in its slot; a truthy item error bumps the error count and
downshifts on a memory-pressure signature or on reaching the threshold. -/
def applyBatchItem {V : Type} (threshold : Nat) (st : PoolRunState V)
    (target : Nat) (item : BatchEmbeddingResultItem V) : PoolRunState V :=
  let st1 : PoolRunState V :=
    { st with res := fun j => if j = target then item else st.res j }
  match item.error with
  | none => st1
  | some s =>
    if s == "" then st1
    else
      let st2 := { st1 with errCount := st1.errCount + 1 }
      if isMemoryPressureError (some s) || threshold ≤ st2.errCount then
        downshiftToSingle st2 s
      else st2

/-- Model of the success path for one claimed sub-batch whose resolved length
matches: each item is applied in order. -/
def runJobOk {V : Type} (threshold offset : Nat)
    (items : List (BatchEmbeddingResultItem V)) (st : PoolRunState V) :
    PoolRunState V :=
  (List.range items.length).foldl
    (fun s i => applyBatchItem threshold s (offset + i) (items.getD i (missingItemFallback V)))
    st

/-- Model of the catch path for one claimed sub-batch (underlying call threw,
or resolved with mismatched length): every slot of the sub-batch fails with
the same message and counts toward the error threshold, then the downshift
condition is checked once. -/
def runJobThrown {V : Type} (threshold offset len : Nat) (message : String)
    (st : PoolRunState V) : PoolRunState V :=
  let st1 := (List.range len).foldl
    (fun s i =>
      { s with
          errCount := s.errCount + 1
          res := fun j =>
            if j = offset + i then
              ({ embedding := none, error := some message } : BatchEmbeddingResultItem V)
            else s.res j })
    st
  if isMemoryPressureError (some message) || threshold ≤ st1.errCount then
    downshiftToSingle st1 message
  else st1

/-- Model of processing one claimed sub-batch `job = (offset, texts)` with the
oracle outcome `resp` of its underlying call. -/
def runJob {V : Type} (threshold : Nat) (st : PoolRunState V)
    (job : Nat × List String) (resp : EmbedderResponse V) : PoolRunState V :=
  match resp with
  | .ok items =>
    if items.length = job.2.length then runJobOk threshold job.1 items st
    else runJobThrown threshold job.1 job.2.length
      (lengthMismatchMessage job.2.length items.length) st
  | .thrown message => runJobThrown threshold job.1 job.2.length message st

/-- Model of the sub-batch construction loop of `embedBatch`: jobs
`(offset, texts.slice(offset, offset + workerBatchSize))` for
`offset = 0, B, 2B, ...`, expressed in closed form over job indices. -/
def makeJobs (workerBatchSize : Nat) (texts : List String) :
    List (Nat × List String) :=
  (List.range ((texts.length + workerBatchSize - 1) / workerBatchSize)).map
    (fun k => (k * workerBatchSize, (texts.drop (k * workerBatchSize)).take workerBatchSize))

/-- The sequence of job executions of one `embedBatch` call. The source
distributes jobs across up to `min(activePoolSize, jobs.length)` concurrent
workers through a shared claim cursor; each job is claimed exactly once, in
cursor order, the per-job side effects run atomically between suspension
points, and result slots of distinct jobs are disjoint, so the call is
modelled as the sequential fold of `runJob` over the jobs in claim order,
with `respond k` the oracle outcome of job `k`'s underlying call. -/
def embedBatchRun {V : Type} (st : PoolState) (respond : Nat → EmbedderResponse V)
    (texts : List String) : PoolRunState V :=
  (List.range (makeJobs st.workerBatchSize texts).length).foldl
    (fun s k => runJob st.downshiftErrorThreshold s
      ((makeJobs st.workerBatchSize texts).getD k (0, [])) (respond k))
    { res := fun _ => notExecutedItem V
      active := st.activePoolSize
      errCount := st.errorCount
      reason := st.downshiftReason }

/-- Model of `EmbeddingWorkerPool.embedBatch`: empty input returns immediately;
an input larger than `maxQueueSize` throws before any work starts; otherwise
the result slots are reassembled in input order and the mutated instance
fields are carried into the next state. -/
def PoolState.embedBatch {V : Type} (st : PoolState)
    (respond : Nat → EmbedderResponse V) (texts : List String) :
    Except String (List (BatchEmbeddingResultItem V) × PoolState) :=
  if texts.length = 0 then .ok ([], st)
  else if st.maxQueueSize < texts.length then
    .error ("embedding queue overflow: " ++ toString texts.length ++ " > " ++
      toString st.maxQueueSize)
  else
    .ok ((List.range texts.length).map (embedBatchRun st respond texts).res,
      { st with
          activePoolSize := (embedBatchRun st respond texts).active
          errorCount := (embedBatchRun st respond texts).errCount
          downshiftReason := (embedBatchRun st respond texts).reason })

/-- One `embedBatch` call made against a pool: the per-job oracle and the
input texts. -/
def CallSpec (V : Type) : Type := (Nat → EmbedderResponse V) × List String

/-- The pool state after one `embedBatch` call (a thrown overflow leaves the
instance fields untouched). -/
def stepState {V : Type} (st : PoolState) (c : CallSpec V) : PoolState :=
  match st.embedBatch c.1 c.2 with
  | .ok (_, st') => st'
  | .error _ => st

/-- The pool state after a sequence of `embedBatch` calls. -/
def runCalls {V : Type} (st : PoolState) (calls : List (CallSpec V)) : PoolState :=
  calls.foldl stepState st

/-- The value a resolved or thrown sub-batch of length `len` contributes to
its `i`-th slot. -/
def jobItemValue {V : Type} (resp : EmbedderResponse V) (len i : Nat) :
    BatchEmbeddingResultItem V :=
  match resp with
  | .thrown m => { embedding := none, error := some m }
  | .ok items =>
    if items.length = len then items.getD i (missingItemFallback V)
    else { embedding := none, error := some (lengthMismatchMessage len items.length) }

/-- The expected content of result slot `i` of an `embedBatch` call over `n`
texts with micro-batch size `w`: the slot is filled by sub-batch `i / w`
(whose length is `min w (n - (i / w) * w)`) at position `i % w`. -/
def slotResult {V : Type} (w : Nat) (respond : Nat → EmbedderResponse V)
    (n i : Nat) : BatchEmbeddingResultItem V :=
  jobItemValue (respond (i / w)) (min w (n - (i / w) * w)) (i % w)

/-- Applying one resolved item only rewrites its own result slot. -/
theorem applyBatchItem_res {V : Type} (threshold : Nat) (st : PoolRunState V)
    (target : Nat) (item : BatchEmbeddingResultItem V) :
    (applyBatchItem threshold st target item).res =
      fun j => if j = target then item else st.res j := by
  rcases item with ⟨emb, err⟩
  rcases err with _ | s
  · rfl
  · unfold applyBatchItem downshiftToSingle
    dsimp only
    split_ifs <;> rfl

/-- Applying one resolved item either keeps the active pool size or
downshifts it to 1. -/
theorem applyBatchItem_active {V : Type} (threshold : Nat) (st : PoolRunState V)
    (target : Nat) (item : BatchEmbeddingResultItem V) :
    (applyBatchItem threshold st target item).active = st.active ∨
      (applyBatchItem threshold st target item).active = 1 := by
  rcases item with ⟨emb, err⟩
  rcases err with _ | s
  · left; rfl
  · unfold applyBatchItem downshiftToSingle
    dsimp only
    split_ifs <;> simp

/-- Folding a slot-writing step over `range n` writes slot `offset + i` with
`g i` and leaves all other slots untouched. -/
theorem foldl_range_res {V : Type} (f : PoolRunState V → Nat → PoolRunState V)
    (g : Nat → BatchEmbeddingResultItem V) (offset : Nat)
    (hf : ∀ s i, (f s i).res = fun j => if j = offset + i then g i else s.res j) :
    ∀ (n : Nat) (st : PoolRunState V) (j : Nat),
      ((List.range n).foldl f st).res j =
        if offset ≤ j ∧ j < offset + n then g (j - offset) else st.res j := by
  intro n
  induction n with
  | zero =>
    intro st j
    rw [List.range_zero, List.foldl_nil, if_neg (by omega)]
  | succ n ih =>
    intro st j
    rw [List.range_succ n, List.foldl_append, List.foldl_cons, List.foldl_nil]
    simp only [hf]
    by_cases hj : j = offset + n
    · subst hj
      rw [if_pos rfl, if_pos (by omega)]
      congr 1
      omega
    · rw [if_neg hj, ih]
      by_cases h2 : offset ≤ j ∧ j < offset + n
      · rw [if_pos h2, if_pos (by omega)]
      · rw [if_neg h2, if_neg (by omega)]

/-- Folding any step that either keeps or downshifts the active pool size
again either keeps or downshifts it. -/
theorem foldl_active_cases {V α : Type} (f : PoolRunState V → α → PoolRunState V)
    (hf : ∀ s x, (f s x).active = s.active ∨ (f s x).active = 1) :
    ∀ (l : List α) (st : PoolRunState V),
      (l.foldl f st).active = st.active ∨ (l.foldl f st).active = 1 := by
  intro l
  induction l with
  | nil =>
    intro st
    left
    rfl
  | cons x xs ih =>
    intro st
    rw [List.foldl_cons]
    rcases ih (f st x) with h | h <;> rcases hf st x with h2 | h2 <;> omega

/-- Result slots written by the success path of one sub-batch. -/
theorem runJobOk_res {V : Type} (threshold offset : Nat)
    (items : List (BatchEmbeddingResultItem V)) (st : PoolRunState V) (j : Nat) :
    (runJobOk threshold offset items st).res j =
      if offset ≤ j ∧ j < offset + items.length then
        items.getD (j - offset) (missingItemFallback V)
      else st.res j := by
  unfold runJobOk
  exact foldl_range_res _ (fun i => items.getD i (missingItemFallback V)) offset
    (fun s i => applyBatchItem_res threshold s (offset + i) _) items.length st j

/-- Result slots written by the catch path of one sub-batch. -/
theorem runJobThrown_res {V : Type} (threshold offset len : Nat) (message : String)
    (st : PoolRunState V) (j : Nat) :
    (runJobThrown threshold offset len message st).res j =
      if offset ≤ j ∧ j < offset + len then
        ({ embedding := none, error := some message } : BatchEmbeddingResultItem V)
      else st.res j := by
  unfold runJobThrown
  have hstep : ∀ (s : PoolRunState V) (i : Nat),
      ({ s with
          errCount := s.errCount + 1
          res := fun j => if j = offset + i then
            ({ embedding := none, error := some message } : BatchEmbeddingResultItem V)
          else s.res j } : PoolRunState V).res =
        fun j => if j = offset + i then
          ({ embedding := none, error := some message } : BatchEmbeddingResultItem V)
        else s.res j := fun _ _ => rfl
  have hif : ∀ (b : Bool) (s : PoolRunState V),
      (if b then downshiftToSingle s message else s).res = s.res := by
    intro b s
    cases b <;> simp [downshiftToSingle]
  dsimp only
  rw [hif]
  exact foldl_range_res _ _ offset hstep len st j

/-- The active pool size after one sub-batch is its previous value or 1. -/
theorem runJob_active {V : Type} (threshold : Nat) (st : PoolRunState V)
    (job : Nat × List String) (resp : EmbedderResponse V) :
    (runJob threshold st job resp).active = st.active ∨
      (runJob threshold st job resp).active = 1 := by
  have hthrown : ∀ (len : Nat) (message : String) (s : PoolRunState V),
      (runJobThrown threshold job.1 len message s).active = s.active ∨
        (runJobThrown threshold job.1 len message s).active = 1 := by
    intro len message s
    unfold runJobThrown
    have hfold := foldl_active_cases
      (fun (t : PoolRunState V) (i : Nat) =>
        ({ t with
            errCount := t.errCount + 1
            res := fun j => if j = job.1 + i then
              ({ embedding := none, error := some message } : BatchEmbeddingResultItem V)
            else t.res j } : PoolRunState V))
      (fun _ _ => Or.inl rfl) (List.range len) s
    dsimp only
    split_ifs
    · right
      rfl
    · exact hfold
  rcases resp with items | message
  · unfold runJob
    dsimp only
    split_ifs
    · exact foldl_active_cases _
        (fun s i => applyBatchItem_active threshold s (job.1 + i) _) _ st
    · exact hthrown _ _ st
  · exact hthrown _ _ st

/-- The catch path downshifts unconditionally on a memory-pressure message. -/
theorem runJobThrown_memory_active {V : Type} (threshold offset len : Nat)
    (message : String) (st : PoolRunState V)
    (hmem : isMemoryPressureError (some message) = true) :
    (runJobThrown threshold offset len message st).active = 1 := by
  unfold runJobThrown
  dsimp only
  rw [if_pos]
  · rfl
  · rw [hmem]
    simp

/-- Result slots written by one sub-batch, whatever its outcome. -/
theorem runJob_res {V : Type} (threshold : Nat) (st : PoolRunState V)
    (offset : Nat) (jtexts : List String) (resp : EmbedderResponse V) (j : Nat) :
    (runJob threshold st (offset, jtexts) resp).res j =
      if offset ≤ j ∧ j < offset + jtexts.length then
        jobItemValue resp jtexts.length (j - offset)
      else st.res j := by
  rcases resp with items | message
  · unfold runJob
    dsimp only
    by_cases hlen : items.length = jtexts.length
    · rw [if_pos hlen, runJobOk_res]
      simp only [jobItemValue, if_pos hlen, hlen]
      simp
    · rw [if_neg hlen, runJobThrown_res]
      simp only [jobItemValue, if_neg hlen]
  · unfold runJob
    rw [runJobThrown_res]
    simp only [jobItemValue]

/-- Two folds over `range n` agree when their step functions agree on all
indices below `n`. -/
theorem foldl_range_congrOn {β : Type} (f g : β → Nat → β) :
    ∀ (n : Nat), (∀ b i, i < n → f b i = g b i) →
      ∀ b, (List.range n).foldl f b = (List.range n).foldl g b := by
  intro n
  induction n with
  | zero =>
    intro _ b
    rfl
  | succ n ih =>
    intro h b
    rw [List.range_succ n, List.foldl_append, List.foldl_append,
      List.foldl_cons, List.foldl_cons, List.foldl_nil, List.foldl_nil]
    rw [ih (fun b i hi => h b i (by omega)) b]
    exact h _ n (by omega)

/-- Ceiling-division bound: a job index is in range exactly when its window
start lies inside the text. -/
theorem lt_ceilDiv_iff {w n k : Nat} (hw : 1 ≤ w) : k < (n + w - 1) / w ↔ k * w < n := by
  rw [Nat.lt_iff_add_one_le, Nat.le_div_iff_mul_le hw]
  have hkw : (k + 1) * w = k * w + w := by ring
  constructor <;> intro h <;> omega

/-- Every input index lies below the total span of the jobs. -/
theorem lt_numJobs_mul {w n i : Nat} (hw : 1 ≤ w) (hi : i < n) :
    i < ((n + w - 1) / w) * w := by
  have hidiv : i / w < (n + w - 1) / w := by
    rw [lt_ceilDiv_iff hw]
    calc (i / w) * w ≤ i := Nat.div_mul_le_self i w
    _ < n := hi
  have hdm := Nat.div_add_mod i w
  have hm : i % w < w := Nat.mod_lt _ (by omega)
  have hc : w * (i / w) = (i / w) * w := Nat.mul_comm w (i / w)
  have h1 : i < (i / w + 1) * w := by
    have he : (i / w + 1) * w = (i / w) * w + w := by ring
    omega
  calc i < (i / w + 1) * w := h1
  _ ≤ ((n + w - 1) / w) * w := Nat.mul_le_mul_right w hidiv

/-- Invariant of the job fold: after the first `m` jobs, each slot below
`m * w` (and below the input length) holds its final value, and every later
slot is untouched. -/
theorem embedRun_fold_res {V : Type} (thr w : Nat) (hw : 1 ≤ w)
    (texts : List String) (respond : Nat → EmbedderResponse V) :
    ∀ (m : Nat) (st : PoolRunState V) (j : Nat),
      ((List.range m).foldl
          (fun s k => runJob thr s
            (k * w, (texts.drop (k * w)).take w) (respond k)) st).res j =
        if j < m * w ∧ j < texts.length then
          slotResult w respond texts.length j
        else st.res j := by
  intro m
  induction m with
  | zero =>
    intro st j
    rw [List.range_zero, List.foldl_nil, if_neg (by omega)]
  | succ m ih =>
    intro st j
    rw [List.range_succ m, List.foldl_append, List.foldl_cons, List.foldl_nil, runJob_res]
    have hlen : ((texts.drop (m * w)).take w).length = min w (texts.length - m * w) := by
      simp [List.length_take, List.length_drop]
    have hsm : (m + 1) * w = m * w + w := by ring
    rw [hlen]
    by_cases hin : m * w ≤ j ∧ j < m * w + min w (texts.length - m * w)
    · have hjn : j < texts.length := by omega
      have hjm : j < (m + 1) * w := by omega
      rw [if_pos hin, if_pos ⟨hjm, hjn⟩]
      have hdiv : j / w = m := by
        apply Nat.div_eq_of_lt_le
        · exact hin.1
        · omega
      have hdm := Nat.div_add_mod j w
      have hc : w * (j / w) = (j / w) * w := Nat.mul_comm w (j / w)
      have hmod : j % w = j - m * w := by
        rw [hdiv] at hdm hc
        omega
      unfold slotResult
      rw [hdiv, hmod]
    · rw [if_neg hin, ih]
      by_cases h2 : j < m * w ∧ j < texts.length
      · rw [if_pos h2, if_pos (by omega)]
      · rw [if_neg h2, if_neg (by omega)]

/-- The number of sub-batches of an `embedBatch` call. -/
theorem makeJobs_length (w : Nat) (texts : List String) :
    (makeJobs w texts).length = (texts.length + w - 1) / w := by
  simp [makeJobs]

/-- The `k`-th sub-batch starts at offset `k * w` and carries the next `w`
texts. -/
theorem makeJobs_getD (w : Nat) (texts : List String) (k : Nat)
    (hk : k < (makeJobs w texts).length) :
    (makeJobs w texts).getD k (0, []) =
      (k * w, (texts.drop (k * w)).take w) := by
  rw [List.getD_eq_getElem _ _ hk]
  unfold makeJobs
  rw [makeJobs_length] at hk
  simp only [List.getElem_map, List.getElem_range]

/-- Slot correspondence: each result slot of an `embedBatch` run holds the
value contributed by the sub-batch containing that input index, at the
position of that index inside the sub-batch. -/
theorem embedBatchRun_res {V : Type} (st : PoolState)
    (respond : Nat → EmbedderResponse V) (texts : List String)
    (hw : 1 ≤ st.workerBatchSize) (i : Nat) (hi : i < texts.length) :
    (embedBatchRun st respond texts).res i =
      slotResult st.workerBatchSize respond texts.length i := by
  unfold embedBatchRun
  rw [foldl_range_congrOn _
    (fun s k => runJob st.downshiftErrorThreshold s
      (k * st.workerBatchSize, (texts.drop (k * st.workerBatchSize)).take st.workerBatchSize)
      (respond k))
    (makeJobs st.workerBatchSize texts).length
    (fun b k hk => by rw [makeJobs_getD st.workerBatchSize texts k hk])]
  rw [makeJobs_length, embedRun_fold_res st.downshiftErrorThreshold st.workerBatchSize hw]
  rw [if_pos ⟨lt_numJobs_mul hw hi, hi⟩]

/-- Successful `embedBatch` calls: one result slot per input text, in input
order, each slot holding its sub-batch's contribution. -/
theorem embedBatch_spec {V : Type} (st : PoolState)
    (respond : Nat → EmbedderResponse V) (texts : List String)
    (hw : 1 ≤ st.workerBatchSize) (hq : texts.length ≤ st.maxQueueSize) :
    ∃ out st', st.embedBatch respond texts = .ok (out, st') ∧
      out.length = texts.length ∧
      ∀ i, i < texts.length →
        out.getD i (notExecutedItem V) =
          slotResult st.workerBatchSize respond texts.length i := by
  by_cases h0 : texts.length = 0
  · refine ⟨[], st, ?_, by simp [h0], fun i hi => absurd hi (by omega)⟩
    unfold PoolState.embedBatch
    rw [if_pos h0]
  · unfold PoolState.embedBatch
    rw [if_neg h0, if_neg (by omega)]
    refine ⟨_, _, rfl, by simp, ?_⟩
    intro i hi
    rw [List.getD_eq_getElem _ _ (by simpa using hi)]
    simp only [List.getElem_map, List.getElem_range]
    exact embedBatchRun_res st respond texts hw i hi

/-- C1 (amended): for every input of at most `maxQueueSize` texts, `embedBatch`
returns one result slot per input text, in input order, slot `i` holding the
contribution of the sub-batch containing text `i` — regardless of the
configured pool size and micro-batch size; the empty input returns the empty
result with the state unchanged. (Inputs exceeding `maxQueueSize` throw an
overflow error instead, see the counterexample.) -/
theorem embedBatch_ordered_complete {V : Type} (st : PoolState)
    (respond : Nat → EmbedderResponse V) (texts : List String)
    (hw : 1 ≤ st.workerBatchSize) (hq : texts.length ≤ st.maxQueueSize) :
    (∃ out st', st.embedBatch respond texts = .ok (out, st') ∧
      out.length = texts.length ∧
      ∀ i, i < texts.length →
        out.getD i (notExecutedItem V) =
          slotResult st.workerBatchSize respond texts.length i) ∧
    st.embedBatch respond ([] : List String) = .ok ([], st) := by
  refine ⟨embedBatch_spec st respond texts hw hq, ?_⟩
  unfold PoolState.embedBatch
  simp

/-- Witness for C1 (amended): a freshly constructed pool maps the empty input
to the empty result. -/
theorem embedBatch_ordered_complete_witness :
    (mkPool ⟨.undefined, .undefined, .undefined, .undefined⟩).embedBatch
        (fun _ => (EmbedderResponse.ok [] : EmbedderResponse Nat)) ([] : List String) =
      .ok ([], mkPool ⟨.undefined, .undefined, .undefined, .undefined⟩) :=
  (embedBatch_ordered_complete (mkPool ⟨.undefined, .undefined, .undefined, .undefined⟩)
    (fun _ => (EmbedderResponse.ok [] : EmbedderResponse Nat)) ["a"]
    (by decide) (by decide)).2

/-- A pool whose queue bound is 1 (an admissible configuration:
`maxQueueSize` option 1). -/
def tinyQueuePool : PoolState :=
  { configuredPoolSize := 2, activePoolSize := 2, maxQueueSize := 1,
    downshiftErrorThreshold := 3, workerBatchSize := 8, errorCount := 0,
    downshiftReason := none }

/-- Counterexample to C1 as stated: with `maxQueueSize = 1`, an input of two
texts does not return a result list at all — the whole call fails with an
overflow error before any work starts. -/
theorem embedBatch_overflow_counterexample :
    tinyQueuePool.embedBatch
        (fun _ => (EmbedderResponse.ok [] : EmbedderResponse Nat)) ["a", "b"] =
      .error "embedding queue overflow: 2 > 1" := by
  rfl

/-- C6: a sub-batch whose underlying call throws reports every one of its
items as failed with that same thrown message, and a slot's value depends
only on its own sub-batch's outcome, so sibling sub-batches are unaffected;
no slot is lost. -/
theorem embedBatch_thrown_subbatch {V : Type} (st : PoolState)
    (respond respond' : Nat → EmbedderResponse V) (texts : List String)
    (hw : 1 ≤ st.workerBatchSize) (hq : texts.length ≤ st.maxQueueSize)
    (k : Nat) (message : String) (hk : respond k = .thrown message) :
    ∃ out st', st.embedBatch respond texts = .ok (out, st') ∧
      (∀ i, i < texts.length → i / st.workerBatchSize = k →
        out.getD i (notExecutedItem V) =
          { embedding := none, error := some message }) ∧
      (∀ j, j < texts.length →
        respond' (j / st.workerBatchSize) = respond (j / st.workerBatchSize) →
        ∃ out' st'', st.embedBatch respond' texts = .ok (out', st'') ∧
          out'.getD j (notExecutedItem V) = out.getD j (notExecutedItem V)) := by
  obtain ⟨out, st', hok, hlen, hslot⟩ := embedBatch_spec st respond texts hw hq
  refine ⟨out, st', hok, ?_, ?_⟩
  · intro i hi hik
    rw [hslot i hi]
    unfold slotResult
    rw [hik, hk]
    rfl
  · intro j hj hagree
    obtain ⟨out', st'', hok', hlen', hslot'⟩ := embedBatch_spec st respond' texts hw hq
    refine ⟨out', st'', hok', ?_⟩
    rw [hslot' j hj, hslot j hj]
    unfold slotResult
    rw [hagree]

/-- Witness for C6: a two-worker pool with micro-batches of 2, where the
second sub-batch's call throws: slots 2 and 3 carry the thrown message. -/
theorem embedBatch_thrown_subbatch_witness :
    ∃ out st',
      ({ configuredPoolSize := 2, activePoolSize := 2, maxQueueSize := 1024,
         downshiftErrorThreshold := 3, workerBatchSize := 2, errorCount := 0,
         downshiftReason := none } : PoolState).embedBatch
          (fun k => if k = 1 then (EmbedderResponse.thrown "boom" : EmbedderResponse Nat)
            else .ok [⟨some 1, none⟩, ⟨some 2, none⟩]) ["a", "b", "c", "d"] =
        .ok (out, st') ∧
      (∀ i, i < 4 → i / 2 = 1 →
        out.getD i (notExecutedItem Nat) = { embedding := none, error := some "boom" }) := by
  obtain ⟨out, st', hok, hthrown, -⟩ := embedBatch_thrown_subbatch
    ({ configuredPoolSize := 2, activePoolSize := 2, maxQueueSize := 1024,
       downshiftErrorThreshold := 3, workerBatchSize := 2, errorCount := 0,
       downshiftReason := none } : PoolState)
    (fun k => if k = 1 then (EmbedderResponse.thrown "boom" : EmbedderResponse Nat)
      else .ok [⟨some 1, none⟩, ⟨some 2, none⟩])
    (fun k => if k = 1 then (EmbedderResponse.thrown "boom" : EmbedderResponse Nat)
      else .ok [⟨some 1, none⟩, ⟨some 2, none⟩])
    ["a", "b", "c", "d"] (by decide) (by decide) 1 "boom" rfl
  exact ⟨out, st', hok, fun i hi hik => hthrown i hi hik⟩

/-- One `embedBatch` call leaves the configuration fields of the pool
untouched. -/
theorem stepState_fields {V : Type} (st : PoolState) (c : CallSpec V) :
    (stepState st c).configuredPoolSize = st.configuredPoolSize ∧
    (stepState st c).maxQueueSize = st.maxQueueSize ∧
    (stepState st c).downshiftErrorThreshold = st.downshiftErrorThreshold ∧
    (stepState st c).workerBatchSize = st.workerBatchSize := by
  unfold stepState PoolState.embedBatch
  split_ifs <;> simp

/-- One `embedBatch` call either keeps the active pool size or downshifts it
to 1 — it never increases it. -/
theorem stepState_active {V : Type} (st : PoolState) (c : CallSpec V) :
    (stepState st c).activePoolSize = st.activePoolSize ∨
      (stepState st c).activePoolSize = 1 := by
  unfold stepState PoolState.embedBatch
  split_ifs
  · left
    rfl
  · left
    rfl
  · show (embedBatchRun st c.1 c.2).active = st.activePoolSize ∨
      (embedBatchRun st c.1 c.2).active = 1
    unfold embedBatchRun
    exact foldl_active_cases _
      (fun s k => runJob_active st.downshiftErrorThreshold s _ (c.1 k)) _ _

/-- A downshifted pool stays downshifted across any sequence of further
`embedBatch` calls. -/
theorem runCalls_active_one {V : Type} (calls : List (CallSpec V)) :
    ∀ st : PoolState, st.activePoolSize = 1 →
      (runCalls st calls).activePoolSize = 1 := by
  induction calls with
  | nil =>
    intro st h
    exact h
  | cons c cs ih =>
    intro st h
    have h2 : (stepState st c).activePoolSize = 1 := by
      rcases stepState_active st c with h2 | h2 <;> omega
    exact ih (stepState st c) h2

/-- If some step of a `range` fold forces the active pool size to 1 and every
step preserves an active pool size of 1, the fold ends at 1. -/
theorem foldl_range_active_one {V : Type} (f : PoolRunState V → Nat → PoolRunState V)
    (habs : ∀ s i, s.active = 1 → (f s i).active = 1) (k : Nat)
    (htrig : ∀ s, (f s k).active = 1) :
    ∀ (n : Nat), k < n → ∀ st : PoolRunState V,
      ((List.range n).foldl f st).active = 1 := by
  intro n
  induction n with
  | zero =>
    intro h
    exact absurd h (by omega)
  | succ n ih =>
    intro hk st
    rw [List.range_succ n, List.foldl_append, List.foldl_cons, List.foldl_nil]
    by_cases hkn : k < n
    · exact habs _ n (ih hkn st)
    · have hkeq : k = n := by omega
      subst hkeq
      exact htrig _

/-- A sub-batch thrown with a memory-pressure message downshifts the pool
within that very call. -/
theorem embedBatch_memory_downshift {V : Type} (st : PoolState)
    (respond : Nat → EmbedderResponse V) (texts : List String)
    (hq : texts.length ≤ st.maxQueueSize) (k : Nat) (message : String)
    (hk : k < (makeJobs st.workerBatchSize texts).length)
    (hr : respond k = .thrown message)
    (hmem : isMemoryPressureError (some message) = true) :
    (stepState st (respond, texts)).activePoolSize = 1 := by
  have hne : ¬texts.length = 0 := by
    intro h0
    rw [makeJobs_length, h0] at hk
    rcases Nat.eq_zero_or_pos st.workerBatchSize with hw0 | hw1
    · rw [hw0] at hk
      simp at hk
    · have hz : (0 + st.workerBatchSize - 1) / st.workerBatchSize = 0 :=
        Nat.div_eq_of_lt (by omega)
      omega
  unfold stepState PoolState.embedBatch
  dsimp only
  rw [if_neg hne, if_neg (by omega)]
  show (embedBatchRun st respond texts).active = 1
  unfold embedBatchRun
  refine foldl_range_active_one _ ?_ k ?_ _ hk _
  · intro s i hs
    rcases runJob_active st.downshiftErrorThreshold s
      ((makeJobs st.workerBatchSize texts).getD i (0, [])) (respond i) with h | h <;> omega
  · intro s
    rw [hr]
    show (runJobThrown st.downshiftErrorThreshold
      ((makeJobs st.workerBatchSize texts).getD k (0, [])).1
      ((makeJobs st.workerBatchSize texts).getD k (0, [])).2.length message s).active = 1
    exact runJobThrown_memory_active _ _ _ _ _ hmem

/-- C3: a sub-batch thrown with a memory-pressure message downshifts
`activePoolSize` to 1 within that call; a pool whose `activePoolSize` is 1
keeps it at 1 after any single call and after any sequence of further calls;
and no `embedBatch` call ever increases `activePoolSize`. -/
theorem pool_downshift_oneway {V : Type} (st stD : PoolState) (c : CallSpec V)
    (calls : List (CallSpec V)) (respond : Nat → EmbedderResponse V)
    (texts : List String) (k : Nat) (message : String)
    (hD : stD.activePoolSize = 1)
    (hq : texts.length ≤ st.maxQueueSize)
    (hk : k < (makeJobs st.workerBatchSize texts).length)
    (hr : respond k = .thrown message)
    (hmem : isMemoryPressureError (some message) = true) :
    (stepState st (respond, texts)).activePoolSize = 1 ∧
    (stepState stD c).activePoolSize = 1 ∧
    (runCalls stD calls).activePoolSize = 1 ∧
    ((stepState st c).activePoolSize = st.activePoolSize ∨
      (stepState st c).activePoolSize = 1) := by
  refine ⟨embedBatch_memory_downshift st respond texts hq k message hk hr hmem,
    ?_, runCalls_active_one calls stD hD, stepState_active st c⟩
  rcases stepState_active stD c with h | h <;> omega

/-- Witness for C3: a concrete two-worker pool receiving an out-of-memory
throw on its second sub-batch, and a concrete downshifted pool that stays at
1 across a further call. -/
theorem pool_downshift_oneway_witness :
    (runCalls
        ({ configuredPoolSize := 2, activePoolSize := 1, maxQueueSize := 4,
           downshiftErrorThreshold := 3, workerBatchSize := 2, errorCount := 5,
           downshiftReason := some "out of memory" } : PoolState)
        ([((fun _ => EmbedderResponse.thrown "later failure"), ["a"])] :
          List (CallSpec Nat))).activePoolSize = 1 :=
  (pool_downshift_oneway
    ({ configuredPoolSize := 2, activePoolSize := 2, maxQueueSize := 1024,
       downshiftErrorThreshold := 3, workerBatchSize := 2, errorCount := 0,
       downshiftReason := none } : PoolState)
    ({ configuredPoolSize := 2, activePoolSize := 1, maxQueueSize := 4,
       downshiftErrorThreshold := 3, workerBatchSize := 2, errorCount := 5,
       downshiftReason := some "out of memory" } : PoolState)
    ((fun _ => EmbedderResponse.thrown "later failure"), ["a"])
    [((fun _ => EmbedderResponse.thrown "later failure"), ["a"])]
    (fun _ => (EmbedderResponse.thrown "out of memory" : EmbedderResponse Nat))
    ["a", "b", "c"] 1 "out of memory"
    (by decide) (by decide) (by decide) rfl (by decide)).2.2.1

/-- The invariant C10 claims of every pool instance. -/
def PoolInvariant (st : PoolState) : Prop :=
  1 ≤ st.activePoolSize ∧ st.activePoolSize ≤ st.configuredPoolSize ∧
  1 ≤ st.maxQueueSize ∧ 1 ≤ st.downshiftErrorThreshold ∧ 1 ≤ st.workerBatchSize

/-- Clamping with a positive fallback always yields at least 1. -/
theorem one_le_clampPositiveInt (v : JsNumberInput) (fb : Nat) (h : 1 ≤ fb) :
    1 ≤ clampPositiveInt v fb := by
  rcases v with _ | _ | p | q <;> unfold clampPositiveInt <;> dsimp only
  · exact h
  · exact h
  · exact h
  · split_ifs with hq
    · exact h
    · have h1 : (1 : Int) ≤ max 1 (jsTrunc q) := le_max_left 1 _
      omega

/-- C10: for every option record — including missing, non-numeric, non-finite,
zero, or negative values, all silently replaced by defaults — the constructed
pool satisfies `1 ≤ activePoolSize ≤ configuredPoolSize` with `maxQueueSize`,
`downshiftErrorThreshold` and `workerBatchSize` all at least 1 (they are `Nat`
by construction, hence integers), and the invariant still holds after every
sequence of `embedBatch` calls; construction is total, so it never throws. -/
theorem pool_invariant_holds {V : Type} (options : EmbeddingWorkerPoolOptions)
    (calls : List (CallSpec V)) :
    PoolInvariant (mkPool options) ∧ PoolInvariant (runCalls (mkPool options) calls) := by
  have hmk : PoolInvariant (mkPool options) := by
    unfold PoolInvariant mkPool
    exact ⟨one_le_clampPositiveInt _ _ (by decide), le_refl _,
      one_le_clampPositiveInt _ _ (by decide),
      one_le_clampPositiveInt _ _ (by decide),
      one_le_clampPositiveInt _ _ (by decide)⟩
  have hstep : ∀ (st : PoolState) (c : CallSpec V),
      PoolInvariant st → PoolInvariant (stepState st c) := by
    intro st c hI
    unfold PoolInvariant at hI ⊢
    obtain ⟨a1, a2, a3, a4, a5⟩ := hI
    obtain ⟨h1, h2, h3, h4⟩ := stepState_fields st c
    rcases stepState_active st c with h5 | h5 <;>
      exact ⟨by omega, by omega, by omega, by omega, by omega⟩
  have hall : ∀ (cs : List (CallSpec V)) (st : PoolState),
      PoolInvariant st → PoolInvariant (runCalls st cs) := by
    intro cs
    induction cs with
    | nil =>
      intro st h
      exact h
    | cons c cs ih =>
      intro st h
      exact ih (stepState st c) (hstep st c h)
  exact ⟨hmk, hall calls _ hmk⟩

end GitStarRecall
